import Mathlib

/-!
Verification of the data-quality pipeline in `src/data-processing`.

Tabular data (pandas `DataFrame`s in the source) is modelled shallowly:
a batch is a column-name list together with a list of rows, each row an
association list from column name to a typed, nullable value.  Numeric
values (ints, floats, timestamps) are modelled as rationals; `NaN`/`NaT`
is the `null` value, and — as in pandas — ordered comparisons against
`null` are false.  All definitions are executable.
-/

namespace DataPipeline

/-- A cell value of a batch: string, numeric (int/float/timestamp as a
rational), or null (pandas `NaN`/`NaT`/`None`). -/
inductive Value where
  | str (s : String)
  | num (q : ℚ)
  | null
  deriving DecidableEq, Repr

/-- A row: an association list from column name to value
(one entry per column of the batch). -/
abbrev Row := List (String × Value)

/-- Look up a column's value in a row (first entry with that name). -/
def Row.get (r : Row) (c : String) : Option Value :=
  (r.find? (fun p => p.1 = c)).map (fun p => p.2)

/-- A record batch: the DataFrame's column list plus its rows, in order. -/
structure Batch where
  cols : List String
  rows : List Row
  deriving DecidableEq, Repr

/-- Well-formedness of a batch: every row has exactly the batch's columns,
in order (pandas invariant: every row has the same column set). -/
def Batch.WF (df : Batch) : Prop :=
  ∀ r ∈ df.rows, r.map Prod.fst = df.cols

instance (df : Batch) : Decidable df.WF := by
  unfold Batch.WF; infer_instance

/-! ### ValidationResult (src/validators/schema_validator.py, lines 14-36) -/

/-- A statistic value stored in `ValidationResult.stats`
(the source stores heterogeneous values; the claims only need these). -/
inductive StatVal where
  | nat (n : Nat)
  | strList (l : List String)
  deriving DecidableEq, Repr

/-- `ValidationResult.__init__`: passed=True, empty errors/warnings/stats.
`stats` is the Python dict, modelled as an insertion-ordered association
list with key update. -/
structure ValidationResult where
  passed : Bool := true
  errors : List String := []
  warnings : List String := []
  stats : List (String × StatVal) := []
  deriving DecidableEq, Repr

/-- `ValidationResult.add_error`: sets `passed = False` and appends. -/
def ValidationResult.add_error (r : ValidationResult) (e : String) : ValidationResult :=
  { r with passed := false, errors := r.errors ++ [e] }

/-- `ValidationResult.add_warning`: appends, `passed` untouched. -/
def ValidationResult.add_warning (r : ValidationResult) (w : String) : ValidationResult :=
  { r with warnings := r.warnings ++ [w] }

/-- Python dict assignment `stats[key] = value`: update in place if the key
exists, else append. -/
def updateStat (stats : List (String × StatVal)) (k : String) (v : StatVal) :
    List (String × StatVal) :=
  if stats.any (fun p => p.1 = k) then
    stats.map (fun p => if p.1 = k then (k, v) else p)
  else
    stats ++ [(k, v)]

/-- `ValidationResult.add_stat`: `self.stats[key] = value`. -/
def ValidationResult.add_stat (r : ValidationResult) (k : String) (v : StatVal) :
    ValidationResult :=
  { r with stats := updateStat r.stats k v }

/-! ### Retry policy (src/data-processing/tests/test_retry_logic.py, lines 25-57) -/

/-- Outcome of one invocation of the wrapped operation: return a value,
raise `TransientError`, or raise `PermanentError` (errors carry their
message). -/
inductive Outcome (α : Type) where
  | success (a : α)
  | transient (msg : String)
  | permanent (msg : String)
  deriving DecidableEq, Repr

/-- Result of `retry_with_backoff`, recording the number of calls made to
the operation.  `noCall` is the Python fall-through returning `None` when
`max_retries = 0` (the `while` loop body never runs). -/
inductive RetryResult (α : Type) where
  | ok (a : α) (calls : Nat)
  | transientErr (msg : String) (calls : Nat)
  | permanentErr (msg : String) (calls : Nat)
  | noCall
  deriving DecidableEq, Repr

/-- The `while attempt < max_retries` loop of `retry_with_backoff`.
`func n` is the outcome of the (n+1)-st call of the operation; `attempt`
counts transient failures so far (the source's `attempt` variable), which
equals the number of calls already made.  The backoff sleep has no
observable effect on the returned value and is omitted. -/
def retryGo {α : Type} (func : Nat → Outcome α) (max_retries : Nat) :
    Nat → RetryResult α
  | attempt =>
    if _h : attempt < max_retries then
      match func attempt with
      | .success a => .ok a (attempt + 1)
      | .transient msg =>
          if attempt + 1 ≥ max_retries then .transientErr msg (attempt + 1)
          else retryGo func max_retries (attempt + 1)
      | .permanent msg => .permanentErr msg (attempt + 1)
    else .noCall
  termination_by attempt => max_retries - attempt

/-- `retry_with_backoff(func, max_retries, ...)`: starts with `attempt = 0`. -/
def retry_with_backoff {α : Type} (func : Nat → Outcome α) (max_retries : Nat) :
    RetryResult α :=
  retryGo func max_retries 0

/-! ### Compliance masking (src/validators/compliance_checker.py, lines 119-173) -/

/-- The card-number column aliases scanned by the compliance checker. -/
def credit_card_columns : List String :=
  ["card_number", "credit_card", "cc_number", "payment_card"]

/-- The security-code column aliases removed by the masker. -/
def cvv_columns : List String := ["cvv", "cvv2", "cvc", "security_code"]

/-- Python `str(value)` for the values a card column can hold (`null` never
reaches this point: `_mask_credit_card` returns early on `pd.isna`). -/
def valueToString : Value → String
  | .str s => s
  | .num q => toString q
  | .null => ""

/-- `str(value).replace(' ', '').replace('-', '')`: drop every space and
hyphen character. -/
def stripSeps (l : List Char) : List Char :=
  l.filter (fun c => ¬(c = ' ' ∨ c = '-'))

/-- The regex `^\d{13,19}$`: 13 to 19 contiguous digits. -/
def looksLikeCard (l : List Char) : Bool :=
  13 ≤ l.length && l.length ≤ 19 && l.all Char.isDigit

/-- The masked form built by `_mask_credit_card`:
`'*' * (len - 4) + value_str[-4:]`. -/
def maskedChars (l : List Char) : List Char :=
  List.replicate (l.length - 4) '*' ++ l.drop (l.length - 4)

/-- `ComplianceChecker._mask_credit_card`: null passes through; otherwise
strip spaces/hyphens, and if the stripped string is 13-19 digits return
the masked string, else return the value unchanged. -/
def mask_credit_card (v : Value) : Value :=
  match v with
  | .null => .null
  | v =>
    let s := stripSeps (valueToString v).data
    if looksLikeCard s then .str (String.mk (maskedChars s)) else v

/-- The per-entry effect of `df[col].apply(self._mask_credit_card)` on a
row's association list: mask the entry of column `col`, keep the rest. -/
def maskEntry (col : String) (p : String × Value) : String × Value :=
  if p.1 = col then (p.1, mask_credit_card p.2) else p

/-- `df[col] = df[col].apply(self._mask_credit_card)`, guarded by
`if col in df.columns`. -/
def maskColumn (col : String) (df : Batch) : Batch :=
  if col ∈ df.cols then
    { df with rows := df.rows.map (fun r => r.map (maskEntry col)) }
  else df

/-- `df = df.drop(columns=[col])`, guarded by `if col in df.columns`. -/
def dropColumn (col : String) (df : Batch) : Batch :=
  if col ∈ df.cols then
    { cols := df.cols.filter (fun c => c ≠ col),
      rows := df.rows.map (fun r => r.filter (fun p => p.1 ≠ col)) }
  else df

/-- `ComplianceChecker.mask_sensitive_fields`: return the batch unchanged
when the `compliance.mask_credit_cards` flag is off; otherwise mask every
card-number column, then drop every security-code column. -/
def mask_sensitive_fields (mask_credit_cards : Bool) (df : Batch) : Batch :=
  if !mask_credit_cards then df
  else
    let df1 := credit_card_columns.foldl (fun d c => maskColumn c d) df
    cvv_columns.foldl (fun d c => dropColumn c d) df1

/-! ### Deduplication (src/processors/raw_to_curated.py, lines 147-200) -/

/-- `RawToCuratedProcessor._get_primary_keys`. -/
def get_primary_keys (table_name : String) : List String :=
  if table_name = "customers" then ["customer_id"]
  else if table_name = "orders" then ["order_id"]
  else if table_name = "order_items" then ["order_item_id"]
  else if table_name = "products" then ["product_id"]
  else if table_name = "categories" then ["category_id"]
  else if table_name = "inventory" then ["inventory_id"]
  else if table_name = "payments" then ["payment_id"]
  else if table_name = "shipments" then ["shipment_id"]
  else if table_name = "reviews" then ["review_id"]
  else if table_name = "promotions" then ["promotion_id"]
  else []

/-- The primary-key tuple of a row: the values of the primary-key columns
(pandas `drop_duplicates(subset=...)` groups rows by exactly this tuple,
with nulls comparing equal). -/
def keyOf (pks : List String) (r : Row) : List (Option Value) :=
  pks.map (fun c => r.get c)

/-- The tie-break timestamp of a row, as the rational used for ordering
(timestamps are modelled as rationals; a missing or non-numeric value
defaults to 0 — the claims about recency assume numeric timestamps). -/
def tsKey (tsCol : String) (r : Row) : ℚ :=
  match r.get tsCol with
  | some (.num q) => q
  | _ => 0

/-- The descending-timestamp order used by
`df.sort_values(by=timestamp_col, ascending=False)`. -/
def tsGE (tsCol : String) (a b : Row) : Prop :=
  tsKey tsCol b ≤ tsKey tsCol a

instance (tsCol : String) : DecidableRel (tsGE tsCol) := fun a b =>
  inferInstanceAs (Decidable (tsKey tsCol b ≤ tsKey tsCol a))

instance (tsCol : String) : IsTotal Row (tsGE tsCol) :=
  ⟨fun a b => le_total (tsKey tsCol b) (tsKey tsCol a)⟩

instance (tsCol : String) : IsTrans Row (tsGE tsCol) :=
  ⟨fun _ _ _ h1 h2 => le_trans h2 h1⟩

/-- `df.drop_duplicates(subset=primary_keys, keep='first')`: scan the rows
in order, keeping a row exactly when its primary-key tuple has not been
seen before. -/
def dedupFirst (key : Row → List (Option Value)) (seen : List (List (Option Value))) :
    List Row → List Row
  | [] => []
  | r :: rs =>
    if key r ∈ seen then dedupFirst key seen rs
    else r :: dedupFirst key (key r :: seen) rs

/-- `RawToCuratedProcessor._deduplicate_records`: no primary keys or missing
primary-key columns ⇒ batch unchanged; timestamp column missing ⇒ keep
first occurrence per key; otherwise sort by the timestamp descending and
keep the first (most recent) row per key.  The source sorts with pandas
`sort_values` (an unstable comparison sort); it is modelled by insertion
sort — a deterministic sort by the same key, which the spec's tie-break
ambiguity permits. -/
def deduplicate_records (tsCol : String) (table : String) (df : Batch) : Batch :=
  let pks := get_primary_keys table
  if pks = [] then df
  else if pks.any (fun k => k ∉ df.cols) then df
  else if tsCol ∉ df.cols then
    { df with rows := dedupFirst (keyOf pks) [] df.rows }
  else
    { df with rows := dedupFirst (keyOf pks) [] (df.rows.insertionSort (tsGE tsCol)) }

/-! ### Numeric-range validation (src/validators/schema_validator.py, lines 145-168)

Error-message strings follow the source text, except that the single
quotes the source puts around column names are omitted. -/

/-- A `ranges` entry of an expected schema: optional `min`/`max` bounds. -/
structure RangeSpec where
  min? : Option ℚ := none
  max? : Option ℚ := none
  deriving DecidableEq, Repr

/-- `pd.api.types.is_numeric_dtype(df[col])`: the column holds only
numbers (nulls are NaN and keep a float dtype). -/
def isNumericCol (df : Batch) (col : String) : Bool :=
  df.rows.all (fun r =>
    match r.get col with
    | some (.num _) => true
    | some .null => true
    | _ => false)

/-- `(df[col] < min_val).sum()`: comparisons against NaN are false. -/
def countBelow (df : Batch) (col : String) (m : ℚ) : Nat :=
  df.rows.countP (fun r =>
    match r.get col with
    | some (.num q) => decide (q < m)
    | _ => false)

/-- `(df[col] > max_val).sum()`. -/
def countAbove (df : Batch) (col : String) (m : ℚ) : Nat :=
  df.rows.countP (fun r =>
    match r.get col with
    | some (.num q) => decide (m < q)
    | _ => false)

/-- The below-minimum error message of `_validate_ranges`. -/
def below_min_msg (col : String) (n : Nat) (m : ℚ) : String :=
  s!"Column {col} has {n} values below minimum {m}"

/-- The above-maximum error message of `_validate_ranges`. -/
def above_max_msg (col : String) (n : Nat) (m : ℚ) : String :=
  s!"Column {col} has {n} values above maximum {m}"

/-- One iteration of the `_validate_ranges` loop for a single column. -/
def validate_range_col (col : String) (spec : RangeSpec) (df : Batch)
    (res : ValidationResult) : ValidationResult :=
  if col ∉ df.cols then res
  else if ¬ isNumericCol df col then res
  else
    let res1 :=
      match spec.min? with
      | none => res
      | some m =>
        let below := countBelow df col m
        if below > 0 then res.add_error (below_min_msg col below m) else res
    match spec.max? with
    | none => res1
    | some m =>
      let above := countAbove df col m
      if above > 0 then res1.add_error (above_max_msg col above m) else res1

/-- `SchemaValidator._validate_ranges`: fold the per-column check over the
declared range rules (dict iteration order = insertion order). -/
def validate_ranges (ranges : List (String × RangeSpec)) (df : Batch)
    (res : ValidationResult) : ValidationResult :=
  ranges.foldl (fun r p => validate_range_col p.1 p.2 df r) res

/-! ### Orders business rules (src/validators/business_rules.py, lines 49-71) -/

/-- Negative-total error message of `_validate_orders`. -/
def neg_total_msg (n : Nat) : String :=
  s!"Found {n} orders with negative total"

/-- Future-date warning message of `_validate_orders`. -/
def future_date_msg (n : Nat) : String :=
  s!"Found {n} orders with future dates"

/-- Totals-reconciliation error message of `_validate_orders`. -/
def order_mismatch_msg (n : Nat) : String :=
  s!"Found {n} orders where subtotal + tax + shipping != total"

/-- `(df['total'] < 0).sum()`. -/
def countNegTotals (df : Batch) : Nat :=
  df.rows.countP (fun r =>
    match r.get "total" with
    | some (.num q) => decide (q < 0)
    | _ => false)

/-- `(df['order_date'] > pd.Timestamp.now()).sum()` after the
`pd.to_datetime(..., errors='coerce')` coercion: unparseable values become
NaT and compare false. -/
def countFutureDates (now : ℚ) (df : Batch) : Nat :=
  df.rows.countP (fun r =>
    match r.get "order_date" with
    | some (.num q) => decide (now < q)
    | _ => false)

/-- Python `abs` on rationals (kept executable for concrete evaluation;
equal to `|q|`). -/
def ratAbs (q : ℚ) : ℚ := if q < 0 then -q else q

/-- Whether a row fails `abs(subtotal + tax + shipping_cost - total) > 0.01`
(NaN arithmetic and comparisons yield false when any operand is null). -/
def orderMismatchRow (r : Row) : Bool :=
  match r.get "subtotal", r.get "tax", r.get "shipping_cost", r.get "total" with
  | some (.num a), some (.num b), some (.num c), some (.num t) =>
    decide (ratAbs (a + b + c - t) > 1 / 100)
  | _, _, _, _ => false

/-- `(abs(calculated_total - df['total']) > tolerance).sum()`. -/
def countOrderMismatch (df : Batch) : Nat :=
  df.rows.countP orderMismatchRow

/-- `BusinessRuleValidator._validate_orders`: the three rules applied in
source order (negative totals ⇒ error, future dates ⇒ warning, totals
reconciliation beyond 0.01 ⇒ error). -/
def validate_orders (now : ℚ) (df : Batch) (res : ValidationResult) : ValidationResult :=
  let res1 :=
    if "total" ∈ df.cols then
      let n := countNegTotals df
      if n > 0 then res.add_error (neg_total_msg n) else res
    else res
  let res2 :=
    if "order_date" ∈ df.cols then
      let n := countFutureDates now df
      if n > 0 then res1.add_warning (future_date_msg n) else res1
    else res1
  if "subtotal" ∈ df.cols ∧ "tax" ∈ df.cols ∧ "shipping_cost" ∈ df.cols ∧
      "total" ∈ df.cols then
    let n := countOrderMismatch df
    if n > 0 then res2.add_error (order_mismatch_msg n) else res2
  else res2

/-! ### Path utilities (src/utils/s3_utils.py, lines 122-200) -/

/-- Python `s.split(sep)` for a single-character separator. -/
def splitChar (sep : Char) : List Char → List (List Char)
  | [] => [[]]
  | c :: rest =>
    let r := splitChar sep rest
    if c = sep then [] :: r
    else
      match r with
      | [] => [[c]]
      | h :: t => (c :: h) :: t

/-- Python `s.split(sep, 1)`: the part before the first separator, and the
rest after it when the separator occurs. -/
def splitFirst (sep : Char) : List Char → List Char × Option (List Char)
  | [] => ([], none)
  | c :: rest =>
    if c = sep then ([], some rest)
    else
      let p := splitFirst sep rest
      (c :: p.1, p.2)

/-- Python `s.rsplit(sep, 1)`: the part before the last separator, and the
part after it when the separator occurs. -/
def rsplitLast (sep : Char) (l : List Char) : List Char × Option (List Char) :=
  let p := splitFirst sep l.reverse
  match p.2 with
  | none => (l, none)
  | some before => (before.reverse, some p.1.reverse)

/-- Python `s.replace(pat, rep)` for a non-empty pattern, with explicit
fuel (the scan consumes at least one character per step, so `l.length`
fuel suffices). -/
def replaceSubAux (pat rep : List Char) : Nat → List Char → List Char
  | 0, l => l
  | _ + 1, [] => []
  | fuel + 1, c :: rest =>
    if pat.isPrefixOf (c :: rest) then
      rep ++ replaceSubAux pat rep fuel ((c :: rest).drop pat.length)
    else c :: replaceSubAux pat rep fuel rest

/-- `bucket.replace(pat, rep)` on strings. -/
def strReplace (s pat rep : String) : String :=
  String.mk (replaceSubAux pat.data rep.data s.data.length s.data)

/-- The metadata dictionary built by `S3Client.extract_metadata_from_key`
(absent dict keys are modelled as `""`, matching the `.get(..., '')`
accesses of the callers). -/
structure Meta where
  schema : String := ""
  table_type : String := ""
  table : String := ""
  ty : String := ""
  year : String := ""
  month : String := ""
  day : String := ""
  filename : String := ""
  deriving DecidableEq, Repr

/-- `S3Client.extract_metadata_from_key`: split the key on `/`; schema is
the first part, table-type the second, filename the last; the table name
is the table-type right-split once on `-`; partition values come from the
`k=v` parts (later parts overwrite earlier ones, as in the source loop). -/
def extract_metadata_from_key (key : String) : Meta :=
  let parts := splitChar '/' key.data
  let table_type := String.mk (parts.getD 1 [])
  let tt :=
    if table_type ≠ "" then
      if table_type.data.any (fun c => c = '-') then
        let p := rsplitLast '-' table_type.data
        (String.mk p.1, String.mk (p.2.getD []))
      else (table_type, "")
    else ("", "")
  let ymd := parts.foldl
    (fun (acc : String × String × String) part =>
      match splitFirst '=' part with
      | (k, some v) =>
        let ks := String.mk k
        if ks = "year" then (String.mk v, acc.2.1, acc.2.2)
        else if ks = "month" then (acc.1, String.mk v, acc.2.2)
        else if ks = "day" then (acc.1, acc.2.1, String.mk v)
        else acc
      | (_, none) => acc)
    ("", "", "")
  { schema := String.mk (parts.headD [])
    table_type := table_type
    table := tt.1
    ty := tt.2
    year := ymd.1
    month := ymd.2.1
    day := ymd.2.2
    filename := String.mk ((parts.getLast?).getD []) }

/-- `S3Client.construct_target_key`: partition segments are appended only
when non-empty. -/
def construct_target_key (schema table bucket_type year month day filename : String) :
    String :=
  let key := schema ++ "/" ++ table ++ "-" ++ bucket_type
  let key := if year ≠ "" then key ++ "/year=" ++ year else key
  let key := if month ≠ "" then key ++ "/month=" ++ month else key
  let key := if day ≠ "" then key ++ "/day=" ++ day else key
  key ++ "/" ++ filename

/-! ### Raw→Curated orchestration (src/processors/raw_to_curated.py, lines 35-145
and 202-231)

`process` is embedded with its collaborators (the validators, the
compliance checker/masker and the deduplicator the class holds as
attributes) as explicit function parameters; S3 reads are modelled by the
batch argument and S3 writes by the returned write list. -/

/-- Stage outcome status of the returned result dictionary. -/
inductive ProcStatus where
  | success
  | failed
  deriving DecidableEq, Repr

/-- The fields of the result dictionary `process` returns that the claims
refer to (fields absent from a branch default to `""`/`0`). -/
structure ProcResult where
  status : ProcStatus
  reason : String := ""
  errors : List String := []
  output_bucket : String := ""
  output_key : String := ""
  initial_records : Nat := 0
  final_records : Nat := 0
  duplicates_removed : Nat := 0
  deriving DecidableEq, Repr

/-- One `write_parquet` call: destination bucket, key and the batch
written. -/
structure SWrite where
  bucket : String
  key : String
  data : Batch
  deriving DecidableEq, Repr

/-- `RawToCuratedProcessor._handle_validation_failure`: the failing batch
(and only the batch — the validation result is logged, not written) goes
to the errors bucket under a `validation-failures/` prefix. -/
def handle_validation_failure (bucket key : String) (df : Batch) : SWrite :=
  { bucket := strReplace bucket "-raw-" "-errors-"
    key := "validation-failures/" ++ key
    data := df }

/-- `RawToCuratedProcessor.process`.  `schemaCheck` is `none` when
`get_default_schema(table)` is empty (the `if table_schema:` guard);
`dedupEnabled` is the `deduplication.enabled` config flag.  Returns the
result dictionary and the list of S3 writes performed, in order. -/
def process (schemaCheck : Option (Batch → ValidationResult))
    (businessCheck : Batch → ValidationResult)
    (complianceCheck : Batch → ValidationResult)
    (maskFn : Batch → Batch)
    (dedupEnabled : Bool)
    (dedupFn : Batch → Batch)
    (bucket key : String) (df : Batch) : ProcResult × List SWrite :=
  let md := extract_metadata_from_key key
  let initial_count := df.rows.length
  let schemaFailure : Option ValidationResult :=
    match schemaCheck with
    | some check =>
      let r := check df
      if r.passed then none else some r
    | none => none
  match schemaFailure with
  | some r =>
    ({ status := .failed, reason := "schema_validation_failed", errors := r.errors },
      [handle_validation_failure bucket key df])
  | none =>
    let br := businessCheck df
    if !br.passed then
      ({ status := .failed, reason := "business_rule_validation_failed",
         errors := br.errors },
        [handle_validation_failure bucket key df])
    else
      let df1 := if dedupEnabled then dedupFn df else df
      let dedup_count := if dedupEnabled then initial_count - df1.rows.length else 0
      let cr := complianceCheck df1
      let df2 := if !cr.passed then maskFn df1 else df1
      let curated_bucket := strReplace bucket "-raw-" "-curated-"
      let curated_key :=
        construct_target_key md.schema md.table "curated" md.year md.month md.day
          md.filename
      ({ status := .success
         output_bucket := curated_bucket
         output_key := curated_key
         initial_records := initial_count
         final_records := df2.rows.length
         duplicates_removed := dedup_count },
        [⟨curated_bucket, curated_key, df2⟩])

/-! ### Auxiliary observation functions used by the theorems -/

/-- The operations a caller can perform on a `ValidationResult` after
construction (the only mutators the source defines). -/
inductive VOp where
  | err (s : String)
  | warn (s : String)
  | stat (k : String) (v : StatVal)
  deriving DecidableEq, Repr

/-- Apply one mutator to a `ValidationResult`. -/
def applyVOp (r : ValidationResult) : VOp → ValidationResult
  | .err s => r.add_error s
  | .warn s => r.add_warning s
  | .stat k v => r.add_stat k v

/-- The cell of a batch at row index `i` and column `c` (`df[c][i]`). -/
def Batch.cell (df : Batch) (i : Nat) (c : String) : Option Value :=
  (df.rows[i]?).bind (fun r => r.get c)

/-- A row whose entries at column `col` are fixpoints of
`_mask_credit_card` (the state of a row after that column was masked). -/
def MaskFixedOn (col : String) (r : Row) : Prop :=
  ∀ p ∈ r, p.1 = col → mask_credit_card p.2 = p.2

/-- A batch all of whose rows are `MaskFixedOn col`. -/
def BatchFixedOn (col : String) (df : Batch) : Prop :=
  ∀ r ∈ df.rows, MaskFixedOn col r

end DataPipeline

namespace DataPipeline

/-! ## Theorems -/

/-- Invariant-preservation core for C7: a `ValidationResult` reachable from
the freshly constructed one satisfies `passed ↔ errors = []`. -/
theorem applyVOp_preserves (r : ValidationResult) (op : VOp)
    (h : r.passed = true ↔ r.errors = []) :
    (applyVOp r op).passed = true ↔ (applyVOp r op).errors = [] := by
  cases op with
  | err s =>
    simp [applyVOp, ValidationResult.add_error]
  | warn s =>
    simpa [applyVOp, ValidationResult.add_warning] using h
  | stat k v =>
    simpa [applyVOp, ValidationResult.add_stat] using h

theorem foldl_applyVOp_invariant (ops : List VOp) (r : ValidationResult)
    (h : r.passed = true ↔ r.errors = []) :
    (ops.foldl applyVOp r).passed = true ↔ (ops.foldl applyVOp r).errors = [] := by
  induction ops generalizing r with
  | nil => exact h
  | cons op ops ih => exact ih _ (applyVOp_preserves r op h)

/-- C7: every `ValidationResult` produced or updated through its operations
(`add_error`, `add_warning`, `add_stat`) satisfies `passed = true` iff the
error list is empty, and adding warnings or stats never changes `passed`. -/
theorem C7_validation_result_invariant (ops : List VOp) :
    ((ops.foldl applyVOp {}).passed = true ↔ (ops.foldl applyVOp {}).errors = []) ∧
    (∀ (r : ValidationResult) (s : String), (r.add_warning s).passed = r.passed) ∧
    (∀ (r : ValidationResult) (k : String) (v : StatVal),
      (r.add_stat k v).passed = r.passed) := by
  refine ⟨foldl_applyVOp_invariant ops {} (by simp), ?_, ?_⟩
  · intro r s; rfl
  · intro r k v; rfl

/-- The retry loop skips over an initial run of transient failures. -/
theorem retryGo_skip_transients {α : Type} (func : Nat → Outcome α)
    (max_retries f : Nat) (hf : f < max_retries) :
    ∀ n a, a + n = f →
      (∀ i, a ≤ i → i < f → ∃ m, func i = .transient m) →
      retryGo func max_retries a = retryGo func max_retries f := by
  intro n
  induction n with
  | zero =>
    intro a ha _
    simp at ha
    rw [ha]
  | succ n ih =>
    intro a ha htr
    have haf : a < f := by omega
    have hamax : a < max_retries := lt_trans haf hf
    obtain ⟨m, hm⟩ := htr a le_rfl haf
    rw [retryGo, dif_pos hamax, hm]
    have hnot : ¬ (a + 1 ≥ max_retries) := by omega
    dsimp only
    rw [if_neg hnot]
    exact ih (a + 1) (by omega) (fun i hi hif => htr i (by omega) hif)

/-- C4: retry semantics.  With `max_retries ≥ 1`: (a) if the operation
raises transient errors on its first `f` calls and succeeds on call
`f + 1` with `f < max_retries`, the exact success value is returned after
exactly `f + 1` calls; (b) a permanent error on the first call propagates
after exactly one call; (c) if every allowed call raises a transient
error, exactly `max_retries` calls are made and the final transient error
propagates unchanged. -/
theorem C4_retry_semantics {α : Type} (func : Nat → Outcome α) (max_retries : Nat)
    (hmax : 1 ≤ max_retries) :
    (∀ (f : Nat) (v : α), f < max_retries →
      (∀ i, i < f → ∃ m, func i = .transient m) → func f = .success v →
      retry_with_backoff func max_retries = .ok v (f + 1)) ∧
    (∀ m, func 0 = .permanent m →
      retry_with_backoff func max_retries = .permanentErr m 1) ∧
    (∀ msgs : Nat → String, (∀ i, i < max_retries → func i = .transient (msgs i)) →
      retry_with_backoff func max_retries =
        .transientErr (msgs (max_retries - 1)) max_retries) := by
  refine ⟨?_, ?_, ?_⟩
  · intro f v hf htr hsucc
    unfold retry_with_backoff
    rw [retryGo_skip_transients func max_retries f hf f 0 (by omega)
      (fun i _ hif => htr i hif)]
    rw [retryGo, dif_pos hf, hsucc]
  · intro m hm
    unfold retry_with_backoff
    rw [retryGo, dif_pos (by omega : 0 < max_retries), hm]
  · intro msgs htr
    have hf : max_retries - 1 < max_retries := by omega
    unfold retry_with_backoff
    rw [retryGo_skip_transients func max_retries (max_retries - 1) hf
      (max_retries - 1) 0 (by omega)
      (fun i _ hif => ⟨msgs i, htr i (by omega)⟩)]
    rw [retryGo, dif_pos hf, htr (max_retries - 1) hf]
    have : max_retries - 1 + 1 ≥ max_retries := by omega
    dsimp only
    rw [if_pos this]
    congr 1
    omega

/-- Witness for C4 at a concrete operation: one transient failure, then
success, with `max_retries = 3`. -/
theorem C4_retry_semantics_witness :
    (1 ≤ 3) ∧
    retry_with_backoff
      (fun i => if i = 0 then Outcome.transient "t1" else Outcome.success "ok") 3 =
      .ok "ok" 2 := by
  refine ⟨by omega, ?_⟩
  exact (C4_retry_semantics
    (fun i => if i = 0 then Outcome.transient "t1" else Outcome.success "ok") 3
    (by omega)).1 1 "ok" (by omega)
    (fun i hi => ⟨"t1", by simp [Nat.lt_one_iff.mp hi]⟩) rfl

/-- Counterexample for C8: a batch with one out-of-range value.
`_validate_ranges` records the error carrying the violation count, but
records no stat — the result's stats map stays empty, contradicting the
claim that the count is also recorded as a stat. -/
theorem C8_counterexample :
    (validate_ranges [("price", { min? := some 0 })]
        ⟨["price"], [[("price", Value.num (-5))]]⟩ {}).errors =
      [below_min_msg "price" 1 0] ∧
    (validate_ranges [("price", { min? := some 0 })]
        ⟨["price"], [[("price", Value.num (-5))]]⟩ {}).stats = [] := by
  constructor <;> rfl

/-- C8 (amended): for a schema column with declared bounds present in the
batch with a numeric dtype, the range check appends one error per violated
bound carrying that bound's violation count, never touches warnings or the
stats map, and clears `passed` exactly when a bound is violated. -/
theorem C8_range_validation_amended (col : String) (spec : RangeSpec) (df : Batch)
    (res : ValidationResult) (hc : col ∈ df.cols) (hn : isNumericCol df col = true) :
    (validate_range_col col spec df res).errors =
      res.errors ++
        (match spec.min? with
          | none => []
          | some m =>
            if 0 < countBelow df col m then [below_min_msg col (countBelow df col m) m]
            else []) ++
        (match spec.max? with
          | none => []
          | some m =>
            if 0 < countAbove df col m then [above_max_msg col (countAbove df col m) m]
            else []) ∧
    (validate_range_col col spec df res).stats = res.stats ∧
    (validate_range_col col spec df res).warnings = res.warnings ∧
    (validate_range_col col spec df res).passed =
      (res.passed &&
        (match spec.min? with
          | none => true
          | some m => decide (countBelow df col m = 0)) &&
        (match spec.max? with
          | none => true
          | some m => decide (countAbove df col m = 0))) := by
  unfold validate_range_col
  rw [if_neg (not_not_intro hc), if_neg (by simp [hn])]
  cases hmin : spec.min? with
  | none =>
    cases hmax : spec.max? with
    | none => simp
    | some m =>
      by_cases hab : 0 < countAbove df col m
      · simp [hab, ValidationResult.add_error, Nat.pos_iff_ne_zero.mp hab]
      · simp [hab, Nat.eq_zero_of_not_pos hab]
  | some m =>
    cases hmax : spec.max? with
    | none =>
      by_cases hbe : 0 < countBelow df col m
      · simp [hbe, ValidationResult.add_error, Nat.pos_iff_ne_zero.mp hbe]
      · simp [hbe, Nat.eq_zero_of_not_pos hbe]
    | some m' =>
      by_cases hbe : 0 < countBelow df col m
      · by_cases hab : 0 < countAbove df col m'
        · simp [hbe, hab, ValidationResult.add_error,
            Nat.pos_iff_ne_zero.mp hbe, Nat.pos_iff_ne_zero.mp hab]
        · simp [hbe, hab, ValidationResult.add_error,
            Nat.pos_iff_ne_zero.mp hbe, Nat.eq_zero_of_not_pos hab]
      · by_cases hab : 0 < countAbove df col m'
        · simp [hbe, hab, ValidationResult.add_error,
            Nat.eq_zero_of_not_pos hbe, Nat.pos_iff_ne_zero.mp hab]
        · simp [hbe, hab, Nat.eq_zero_of_not_pos hbe, Nat.eq_zero_of_not_pos hab]

/-- Witness for C8 (amended) at the counterexample batch. -/
theorem C8_range_validation_amended_witness :
    ("price" ∈ (⟨["price"], [[("price", Value.num (-5))]]⟩ : Batch).cols) ∧
    (isNumericCol ⟨["price"], [[("price", Value.num (-5))]]⟩ "price" = true) ∧
    ((validate_range_col "price" { min? := some 0 }
        ⟨["price"], [[("price", Value.num (-5))]]⟩ {}).stats = []) := by
  refine ⟨by decide, by decide, ?_⟩
  exact (C8_range_validation_amended "price" { min? := some 0 }
    ⟨["price"], [[("price", Value.num (-5))]]⟩ {} (by decide) (by decide)).2.1

/-- Counterexample for C9: an orders batch whose single row has a negative
total that reconciles exactly (`subtotal + tax + shipping = total`).  The
validator returns `passed = false` (negative-total rule) although no row
differs from its reconstructed total by more than the tolerance, so
"passed=false exactly when some row exceeds the tolerance" is false. -/
theorem C9_counterexample :
    (validate_orders 100
        ⟨["total", "subtotal", "tax", "shipping_cost"],
          [[("total", Value.num (-5)), ("subtotal", Value.num (-5)),
            ("tax", Value.num 0), ("shipping_cost", Value.num 0)]]⟩ {}).passed
      = false ∧
    countOrderMismatch
        ⟨["total", "subtotal", "tax", "shipping_cost"],
          [[("total", Value.num (-5)), ("subtotal", Value.num (-5)),
            ("tax", Value.num 0), ("shipping_cost", Value.num 0)]]⟩ = 0 := by
  have h3 : countOrderMismatch
      ⟨["total", "subtotal", "tax", "shipping_cost"],
        [[("total", Value.num (-5)), ("subtotal", Value.num (-5)),
          ("tax", Value.num 0), ("shipping_cost", Value.num 0)]]⟩ = 0 := by
    simp [countOrderMismatch, orderMismatchRow, Row.get]
    norm_num [ratAbs]
  refine ⟨?_, h3⟩
  simp [validate_orders, h3, ValidationResult.add_error, ValidationResult.add_warning]
  decide

/-- C9 (amended): for an orders batch with subtotal, tax, shipping and
total all present, the validator emits the reconciliation error (carrying
the mismatch count) exactly when some row differs from
`subtotal + tax + shipping_cost` by more than 0.01, rows within the
tolerance contribute no error, and `passed = true` iff no row mismatches
and no total is negative. -/
theorem C9_orders_validation_amended (now : ℚ) (df : Batch)
    (h : ∀ c ∈ ["subtotal", "tax", "shipping_cost", "total"], c ∈ df.cols) :
    (validate_orders now df {}).errors =
      (if 0 < countNegTotals df then [neg_total_msg (countNegTotals df)] else []) ++
      (if 0 < countOrderMismatch df then [order_mismatch_msg (countOrderMismatch df)]
        else []) ∧
    ((validate_orders now df {}).passed = true ↔
      countNegTotals df = 0 ∧ countOrderMismatch df = 0) := by
  have htot : "total" ∈ df.cols := h "total" (by simp)
  have hand : "subtotal" ∈ df.cols ∧ "tax" ∈ df.cols ∧ "shipping_cost" ∈ df.cols ∧
      "total" ∈ df.cols :=
    ⟨h "subtotal" (by simp), h "tax" (by simp), h "shipping_cost" (by simp), htot⟩
  unfold validate_orders
  rw [if_pos htot, if_pos hand]
  by_cases hdate : "order_date" ∈ df.cols <;>
    by_cases hfut : 0 < countFutureDates now df <;>
      simp only [if_pos, if_neg, hdate, hfut, if_true, if_false, ite_true, ite_false] <;>
        by_cases hneg : 0 < countNegTotals df <;>
          by_cases hmis : 0 < countOrderMismatch df <;>
            simp [hneg, hmis, ValidationResult.add_error, ValidationResult.add_warning] <;>
              omega

/-- Witness for C9 (amended) at a reconciling one-row orders batch. -/
theorem C9_orders_validation_amended_witness :
    (∀ c ∈ ["subtotal", "tax", "shipping_cost", "total"],
      c ∈ (⟨["total", "subtotal", "tax", "shipping_cost"],
        [[("total", Value.num 10), ("subtotal", Value.num 9),
          ("tax", Value.num 1), ("shipping_cost", Value.num 0)]]⟩ : Batch).cols) ∧
    ((validate_orders 100
        ⟨["total", "subtotal", "tax", "shipping_cost"],
          [[("total", Value.num 10), ("subtotal", Value.num 9),
            ("tax", Value.num 1), ("shipping_cost", Value.num 0)]]⟩ {}).passed = true ↔
      countNegTotals
          ⟨["total", "subtotal", "tax", "shipping_cost"],
            [[("total", Value.num 10), ("subtotal", Value.num 9),
              ("tax", Value.num 1), ("shipping_cost", Value.num 0)]]⟩ = 0 ∧
      countOrderMismatch
          ⟨["total", "subtotal", "tax", "shipping_cost"],
            [[("total", Value.num 10), ("subtotal", Value.num 9),
              ("tax", Value.num 1), ("shipping_cost", Value.num 0)]]⟩ = 0) := by
  refine ⟨by decide, ?_⟩
  exact (C9_orders_validation_amended 100
    ⟨["total", "subtotal", "tax", "shipping_cost"],
      [[("total", Value.num 10), ("subtotal", Value.num 9),
        ("tax", Value.num 1), ("shipping_cost", Value.num 0)]]⟩ (by decide)).2

/-- Counterexample for C5: on a schema-validation failure the batch is
written to the errors bucket but under a `validation-failures/` prefix —
the key is not the input key, so the rest of the path is not preserved —
and the write carries only the batch, not the validation result. -/
theorem C5_counterexample :
    (process (some (fun _ => ({} : ValidationResult).add_error "bad"))
        (fun _ => {}) (fun _ => {}) (fun b => b) true (fun b => b)
        "acme-raw-x" "public/orders-raw/f.parquet"
        ⟨["a"], [[("a", Value.num 1)]]⟩).1.status = .failed ∧
    (process (some (fun _ => ({} : ValidationResult).add_error "bad"))
        (fun _ => {}) (fun _ => {}) (fun b => b) true (fun b => b)
        "acme-raw-x" "public/orders-raw/f.parquet"
        ⟨["a"], [[("a", Value.num 1)]]⟩).2 =
      [{ bucket := "acme-errors-x",
         key := "validation-failures/public/orders-raw/f.parquet",
         data := ⟨["a"], [[("a", Value.num 1)]]⟩ }] ∧
    "validation-failures/public/orders-raw/f.parquet" ≠ "public/orders-raw/f.parquet" := by
  refine ⟨rfl, by decide, by decide⟩

/-- C5 (amended): on any validation failure (schema or business rule) the
stage performs exactly one write — the failing batch alone, to the bucket
with the `-raw-` zone segment replaced by `-errors-` and the key prefixed
with `validation-failures/` — and returns a failed status; nothing is
written to the curated zone. -/
theorem C5_validation_failure_amended
    (schemaCheck : Option (Batch → ValidationResult))
    (businessCheck complianceCheck : Batch → ValidationResult)
    (maskFn : Batch → Batch) (dedupEnabled : Bool) (dedupFn : Batch → Batch)
    (bucket key : String) (df : Batch)
    (h : (∃ f, schemaCheck = some f ∧ (f df).passed = false) ∨
         ((∀ f, schemaCheck = some f → (f df).passed = true) ∧
           (businessCheck df).passed = false)) :
    (process schemaCheck businessCheck complianceCheck maskFn dedupEnabled dedupFn
        bucket key df).1.status = .failed ∧
    (process schemaCheck businessCheck complianceCheck maskFn dedupEnabled dedupFn
        bucket key df).2 =
      [{ bucket := strReplace bucket "-raw-" "-errors-",
         key := "validation-failures/" ++ key,
         data := df }] := by
  rcases h with ⟨f, hf, hp⟩ | ⟨hpass, hbr⟩
  · subst hf
    simp [process, hp, handle_validation_failure]
  · cases schemaCheck with
    | none => simp [process, hbr, handle_validation_failure]
    | some f => simp [process, hpass f rfl, hbr, handle_validation_failure]

/-- Witness for C5 (amended): a concrete failing schema validation. -/
theorem C5_validation_failure_amended_witness :
    ((∃ f, (some (fun _ => ({} : ValidationResult).add_error "bad")) = some f ∧
        (f (⟨["a"], [[("a", Value.num 1)]]⟩ : Batch)).passed = false) ∨
      ((∀ f, (some (fun _ => ({} : ValidationResult).add_error "bad")) = some f →
        (f (⟨["a"], [[("a", Value.num 1)]]⟩ : Batch)).passed = true) ∧
        ((fun _ => ({} : ValidationResult)) (⟨["a"], [[("a", Value.num 1)]]⟩ : Batch)).passed
          = false)) ∧
    (process (some (fun _ => ({} : ValidationResult).add_error "bad"))
        (fun _ => {}) (fun _ => {}) (fun b => b) true (fun b => b)
        "acme-raw-x" "public/orders-raw/f.parquet"
        ⟨["a"], [[("a", Value.num 1)]]⟩).1.status = .failed := by
  refine ⟨Or.inl ⟨_, rfl, rfl⟩, ?_⟩
  exact (C5_validation_failure_amended
    (some (fun _ => ({} : ValidationResult).add_error "bad"))
    (fun _ => {}) (fun _ => {}) (fun b => b) true (fun b => b)
    "acme-raw-x" "public/orders-raw/f.parquet"
    ⟨["a"], [[("a", Value.num 1)]]⟩ (Or.inl ⟨_, rfl, rfl⟩)).1

/-- C6: compliance findings never fail the Raw→Curated stage — when schema
and business-rule validation pass and the compliance check reports errors,
the stage masks the (deduplicated) batch, performs exactly one write (the
masked batch, to the curated bucket and derived curated key), and returns
a success status reporting the input row count, the output row count and
the number of duplicates removed. -/
theorem C6_compliance_never_blocks
    (schemaCheck : Option (Batch → ValidationResult))
    (businessCheck complianceCheck : Batch → ValidationResult)
    (maskFn : Batch → Batch) (dedupEnabled : Bool) (dedupFn : Batch → Batch)
    (bucket key : String) (df : Batch)
    (hschema : ∀ f, schemaCheck = some f → (f df).passed = true)
    (hbiz : (businessCheck df).passed = true)
    (hcomp : (complianceCheck (if dedupEnabled then dedupFn df else df)).passed = false) :
    (process schemaCheck businessCheck complianceCheck maskFn dedupEnabled dedupFn
        bucket key df).1.status = .success ∧
    (process schemaCheck businessCheck complianceCheck maskFn dedupEnabled dedupFn
        bucket key df).1.initial_records = df.rows.length ∧
    (process schemaCheck businessCheck complianceCheck maskFn dedupEnabled dedupFn
        bucket key df).1.final_records =
      (maskFn (if dedupEnabled then dedupFn df else df)).rows.length ∧
    (process schemaCheck businessCheck complianceCheck maskFn dedupEnabled dedupFn
        bucket key df).1.duplicates_removed =
      (if dedupEnabled then
        df.rows.length - (dedupFn df).rows.length else 0) ∧
    (process schemaCheck businessCheck complianceCheck maskFn dedupEnabled dedupFn
        bucket key df).2 =
      [{ bucket := strReplace bucket "-raw-" "-curated-",
         key := construct_target_key (extract_metadata_from_key key).schema
           (extract_metadata_from_key key).table "curated"
           (extract_metadata_from_key key).year (extract_metadata_from_key key).month
           (extract_metadata_from_key key).day (extract_metadata_from_key key).filename,
         data := maskFn (if dedupEnabled then dedupFn df else df) }] := by
  cases schemaCheck with
  | none =>
    cases dedupEnabled with
    | false => simp_all [process]
    | true => simp_all [process]
  | some f =>
    have hp := hschema f rfl
    cases dedupEnabled with
    | false => simp_all [process]
    | true => simp_all [process]

/-- Witness for C6 at a concrete batch whose compliance check fails. -/
theorem C6_compliance_never_blocks_witness :
    ((fun _ => ({} : ValidationResult)) (⟨["a"], [[("a", Value.num 1)]]⟩ : Batch)).passed
      = true ∧
    ((fun _ => ({} : ValidationResult).add_error "pci")
        (if false then (⟨["a"], [[("a", Value.num 1)]]⟩ : Batch) else
          (⟨["a"], [[("a", Value.num 1)]]⟩ : Batch))).passed = false ∧
    (process (some (fun _ => ({} : ValidationResult)))
        (fun _ => {}) (fun _ => ({} : ValidationResult).add_error "pci")
        (fun b => b) false (fun b => b)
        "acme-raw-x" "public/orders-raw/year=2024/f.parquet"
        ⟨["a"], [[("a", Value.num 1)]]⟩).1.status = .success := by
  refine ⟨rfl, rfl, ?_⟩
  exact (C6_compliance_never_blocks (some (fun _ => ({} : ValidationResult)))
    (fun _ => {}) (fun _ => ({} : ValidationResult).add_error "pci")
    (fun b => b) false (fun b => b)
    "acme-raw-x" "public/orders-raw/year=2024/f.parquet"
    ⟨["a"], [[("a", Value.num 1)]]⟩
    (fun f hf => by cases hf; rfl) rfl rfl).1

/-! ### Masking lemmas (for C2, C3, C10) -/

/-- Digits are neither spaces nor hyphens, so stripping separators leaves a
digit string unchanged; the mask character is likewise untouched. -/
theorem looksLikeCard_parts {s : List Char} (hs : looksLikeCard s = true) :
    13 ≤ s.length ∧ s.length ≤ 19 ∧ ∀ c ∈ s, c.isDigit = true := by
  unfold looksLikeCard at hs
  simp only [Bool.and_eq_true, decide_eq_true_eq, List.all_eq_true] at hs
  exact ⟨hs.1.1, hs.1.2, hs.2⟩

theorem stripSeps_maskedChars {s : List Char} (hs : looksLikeCard s = true) :
    stripSeps (maskedChars s) = maskedChars s := by
  obtain ⟨h13, h19, hall⟩ := looksLikeCard_parts hs
  unfold stripSeps
  apply List.filter_eq_self.mpr
  intro c hc
  rcases List.mem_append.mp hc with hrep | hdrop
  · have : c = '*' := List.eq_of_mem_replicate hrep
    subst this; decide
  · have hdig : c.isDigit = true := hall c (List.mem_of_mem_drop hdrop)
    simp only [decide_eq_true_eq]
    rintro (rfl | rfl) <;> simp at hdig

/-- A masked card string is not itself card-shaped: it starts with at
least one mask character, which is not a digit. -/
theorem looksLikeCard_maskedChars {s : List Char} (hs : looksLikeCard s = true) :
    looksLikeCard (maskedChars s) = false := by
  obtain ⟨h13, _, _⟩ := looksLikeCard_parts hs
  have hmem : '*' ∈ maskedChars s := by
    unfold maskedChars
    apply List.mem_append.mpr
    left
    apply List.mem_replicate.mpr
    exact ⟨by omega, rfl⟩
  unfold looksLikeCard
  apply Bool.and_eq_false_iff.mpr
  right
  apply Bool.eq_false_iff.mpr
  intro hall
  have := List.all_eq_true.mp hall '*' hmem
  simp at this

/-- Unfolding `_mask_credit_card` on a string value. -/
theorem mask_credit_card_str (s : String) :
    mask_credit_card (.str s) =
      (if looksLikeCard (stripSeps s.data) then
        Value.str (String.mk (maskedChars (stripSeps s.data)))
      else .str s) := rfl

/-- Unfolding `_mask_credit_card` on a numeric value. -/
theorem mask_credit_card_num (q : ℚ) :
    mask_credit_card (.num q) =
      (if looksLikeCard (stripSeps (toString q).data) then
        Value.str (String.mk (maskedChars (stripSeps (toString q).data)))
      else .num q) := rfl

/-- A freshly masked string is a fixpoint of `_mask_credit_card`. -/
theorem mask_credit_card_fixed_masked {s : List Char} (hs : looksLikeCard s = true) :
    mask_credit_card (.str (String.mk (maskedChars s))) =
      .str (String.mk (maskedChars s)) := by
  rw [mask_credit_card_str]
  rw [show (String.mk (maskedChars s)).data = maskedChars s from rfl]
  rw [stripSeps_maskedChars hs, looksLikeCard_maskedChars hs]
  simp

/-- `_mask_credit_card` is idempotent on every value. -/
theorem mask_credit_card_idem (v : Value) :
    mask_credit_card (mask_credit_card v) = mask_credit_card v := by
  cases v with
  | null => rfl
  | str s =>
    by_cases h : looksLikeCard (stripSeps s.data) = true
    · rw [mask_credit_card_str, if_pos h, mask_credit_card_fixed_masked h]
    · have h1 : mask_credit_card (.str s) = .str s := by
        rw [mask_credit_card_str, if_neg (by simp [h])]
      rw [h1]
      exact h1
  | num q =>
    by_cases h : looksLikeCard (stripSeps (toString q).data) = true
    · rw [mask_credit_card_num, if_pos h, mask_credit_card_fixed_masked h]
    · have h1 : mask_credit_card (.num q) = .num q := by
        rw [mask_credit_card_num, if_neg (by simp [h])]
      rw [h1]
      exact h1

theorem maskEntry_fst (col : String) (p : String × Value) :
    (maskEntry col p).1 = p.1 := by
  unfold maskEntry
  split <;> rfl

theorem maskEntry_idem (col : String) (p : String × Value) :
    maskEntry col (maskEntry col p) = maskEntry col p := by
  unfold maskEntry
  by_cases h : p.1 = col
  · simp [h, mask_credit_card_idem]
  · simp [h]

/-- After masking column `col`, its entries are mask fixpoints. -/
theorem maskFixedOn_map_maskEntry (col : String) (r : Row) :
    MaskFixedOn col (r.map (maskEntry col)) := by
  intro p hp hcol
  obtain ⟨p0, hp0, rfl⟩ := List.mem_map.mp hp
  unfold maskEntry at hcol ⊢
  by_cases h : p0.1 = col
  · simp [h, mask_credit_card_idem]
  · rw [if_neg h] at hcol
    exact absurd hcol h

/-- Masking any column preserves mask-fixedness of any column. -/
theorem maskFixedOn_preserved_map (col c : String) (r : Row)
    (h : MaskFixedOn c r) : MaskFixedOn c (r.map (maskEntry col)) := by
  intro p hp hc
  obtain ⟨p0, hp0, rfl⟩ := List.mem_map.mp hp
  unfold maskEntry
  by_cases h0 : p0.1 = col
  · simp [h0, mask_credit_card_idem]
  · rw [maskEntry_fst] at hc
    simp only [maskEntry, if_neg h0]
    exact h p0 hp0 hc

/-- Filtering a row preserves mask-fixedness. -/
theorem maskFixedOn_filter (c : String) (q : String × Value → Bool) (r : Row)
    (h : MaskFixedOn c r) : MaskFixedOn c (r.filter q) := by
  intro p hp hc
  exact h p (List.mem_of_mem_filter hp) hc

/-- A row fixed on `col` is unchanged by masking `col` again. -/
theorem map_maskEntry_id_of_fixed {col : String} {r : Row}
    (h : MaskFixedOn col r) : r.map (maskEntry col) = r := by
  have : ∀ p ∈ r, maskEntry col p = id p := by
    intro p hp
    unfold maskEntry
    by_cases hc : p.1 = col
    · simp only [hc, if_true, id]
      have := h p hp hc
      ext
      · simp [hc]
      · simp [this]
    · simp [hc]
  rw [List.map_congr_left this, List.map_id]

theorem maskColumn_cols (col : String) (df : Batch) :
    (maskColumn col df).cols = df.cols := by
  unfold maskColumn
  split <;> rfl

theorem maskColumn_rows_length (col : String) (df : Batch) :
    (maskColumn col df).rows.length = df.rows.length := by
  unfold maskColumn
  split <;> simp

theorem dropColumn_cols_sub (col c : String) (df : Batch)
    (h : c ∈ (dropColumn col df).cols) : c ∈ df.cols := by
  unfold dropColumn at h
  split at h
  · exact List.mem_of_mem_filter h
  · exact h

theorem not_mem_dropColumn_cols (col : String) (df : Batch) :
    col ∉ (dropColumn col df).cols := by
  unfold dropColumn
  split
  · intro h
    have := List.of_mem_filter h
    simp at this
  · assumption

theorem dropColumn_rows_length (col : String) (df : Batch) :
    (dropColumn col df).rows.length = df.rows.length := by
  unfold dropColumn
  split <;> simp

/-- `BatchFixedOn` is preserved by masking any column. -/
theorem batchFixedOn_maskColumn (col c : String) (df : Batch)
    (h : BatchFixedOn c df) : BatchFixedOn c (maskColumn col df) := by
  unfold maskColumn
  split
  · intro r hr
    obtain ⟨r0, hr0, rfl⟩ := List.mem_map.mp hr
    exact maskFixedOn_preserved_map col c r0 (h r0 hr0)
  · exact h

/-- `BatchFixedOn` is preserved by dropping any column. -/
theorem batchFixedOn_dropColumn (col c : String) (df : Batch)
    (h : BatchFixedOn c df) : BatchFixedOn c (dropColumn col df) := by
  unfold dropColumn
  split
  · intro r hr
    obtain ⟨r0, hr0, rfl⟩ := List.mem_map.mp hr
    exact maskFixedOn_filter c _ r0 (h r0 hr0)
  · exact h

theorem batchFixedOn_foldl_maskColumn (cs : List String) (c : String) (df : Batch)
    (h : BatchFixedOn c df) :
    BatchFixedOn c (cs.foldl (fun d col => maskColumn col d) df) := by
  induction cs generalizing df with
  | nil => exact h
  | cons col cs ih => exact ih (maskColumn col df) (batchFixedOn_maskColumn col c df h)

theorem batchFixedOn_foldl_dropColumn (cs : List String) (c : String) (df : Batch)
    (h : BatchFixedOn c df) :
    BatchFixedOn c (cs.foldl (fun d col => dropColumn col d) df) := by
  induction cs generalizing df with
  | nil => exact h
  | cons col cs ih => exact ih (dropColumn col df) (batchFixedOn_dropColumn col c df h)

/-- After masking column `c` (present or not), the whole batch is fixed on
`c` provided `c ∈ df.cols`, and after the full card-column pass every card
column present in the batch is fixed. -/
theorem batchFixedOn_after_foldl_maskColumn (cs : List String) (c : String)
    (df : Batch) (hc : c ∈ cs) (hcol : c ∈ df.cols) :
    BatchFixedOn c (cs.foldl (fun d col => maskColumn col d) df) := by
  induction cs generalizing df with
  | nil => exact absurd hc (List.not_mem_nil c)
  | cons col cs ih =>
    by_cases hcc : c ∈ cs
    · exact ih (maskColumn col df) hcc (by rw [maskColumn_cols]; exact hcol)
    · have hc0 : c = col := by
        rcases List.mem_cons.mp hc with h | h
        · exact h
        · exact absurd h hcc
      subst hc0
      rw [List.foldl_cons]
      apply batchFixedOn_foldl_maskColumn
      unfold maskColumn
      rw [if_pos hcol]
      intro r hr
      obtain ⟨r0, hr0, rfl⟩ := List.mem_map.mp hr
      exact maskFixedOn_map_maskEntry c r0

theorem maskColumn_id_of_fixed (col : String) (df : Batch)
    (h : col ∈ df.cols → BatchFixedOn col df) : maskColumn col df = df := by
  unfold maskColumn
  split
  · rename_i hcol
    have hrows : df.rows.map (fun r => r.map (maskEntry col)) = df.rows := by
      have : ∀ r ∈ df.rows, r.map (maskEntry col) = id r := by
        intro r hr
        simpa using map_maskEntry_id_of_fixed (h hcol r hr)
      rw [List.map_congr_left this, List.map_id]
    rw [hrows]
  · rfl

theorem foldl_maskColumn_id (cs : List String) (df : Batch)
    (h : ∀ c ∈ cs, c ∈ df.cols → BatchFixedOn c df) :
    cs.foldl (fun d col => maskColumn col d) df = df := by
  induction cs with
  | nil => rfl
  | cons col cs ih =>
    have h0 : maskColumn col df = df :=
      maskColumn_id_of_fixed col df (h col (by simp))
    rw [List.foldl_cons, h0]
    exact ih (fun c hc => h c (by simp [hc]))

theorem dropColumn_id_of_not_mem (col : String) (df : Batch)
    (h : col ∉ df.cols) : dropColumn col df = df := by
  unfold dropColumn
  rw [if_neg h]

theorem foldl_dropColumn_cols_sub (cs : List String) (c : String) (df : Batch)
    (h : c ∈ (cs.foldl (fun d col => dropColumn col d) df).cols) : c ∈ df.cols := by
  induction cs generalizing df with
  | nil => exact h
  | cons col cs ih => exact dropColumn_cols_sub col c df (ih (dropColumn col df) h)

theorem foldl_dropColumn_not_mem (cs : List String) (c : String) (df : Batch)
    (hc : c ∈ cs) : c ∉ (cs.foldl (fun d col => dropColumn col d) df).cols := by
  induction cs generalizing df with
  | nil => exact absurd hc (List.not_mem_nil c)
  | cons col cs ih =>
    by_cases hcc : c ∈ cs
    · exact ih (dropColumn col df) hcc
    · have hc0 : c = col := by
        rcases List.mem_cons.mp hc with h | h
        · exact h
        · exact absurd h hcc
      subst hc0
      intro hmem
      exact not_mem_dropColumn_cols c df (foldl_dropColumn_cols_sub cs c _ hmem)

theorem foldl_dropColumn_id (cs : List String) (df : Batch)
    (h : ∀ c ∈ cs, c ∉ df.cols) :
    cs.foldl (fun d col => dropColumn col d) df = df := by
  induction cs with
  | nil => rfl
  | cons col cs ih =>
    rw [List.foldl_cons, dropColumn_id_of_not_mem col df (h col (by simp))]
    exact ih (fun c hc => h c (by simp [hc]))

theorem foldl_maskColumn_cols (cs : List String) (df : Batch) :
    (cs.foldl (fun d col => maskColumn col d) df).cols = df.cols := by
  induction cs generalizing df with
  | nil => rfl
  | cons col cs ih => rw [List.foldl_cons, ih, maskColumn_cols]

/-- C2: masking is idempotent — `mask(mask(batch)) == mask(batch)` for
every batch and both states of the `mask_credit_cards` flag (the table
name only feeds logging in the source and does not appear in the model). -/
theorem C2_mask_idempotent (mask_credit_cards : Bool) (df : Batch) :
    mask_sensitive_fields mask_credit_cards (mask_sensitive_fields mask_credit_cards df)
      = mask_sensitive_fields mask_credit_cards df := by
  cases mask_credit_cards with
  | false => rfl
  | true =>
    unfold mask_sensitive_fields
    simp only [Bool.not_true, Bool.false_eq_true, if_false]
    set A := credit_card_columns.foldl (fun d c => maskColumn c d) df with hA
    set B := cvv_columns.foldl (fun d c => dropColumn c d) A with hB
    have hmask : credit_card_columns.foldl (fun d c => maskColumn c d) B = B := by
      apply foldl_maskColumn_id
      intro c hc hcol
      have hcolA : c ∈ A.cols := foldl_dropColumn_cols_sub _ c A (hB ▸ hcol)
      have hcoldf : c ∈ df.cols := by
        rw [hA] at hcolA
        rwa [foldl_maskColumn_cols] at hcolA
      have hfixA : BatchFixedOn c A :=
        hA ▸ batchFixedOn_after_foldl_maskColumn credit_card_columns c df hc hcoldf
      exact hB ▸ batchFixedOn_foldl_dropColumn cvv_columns c A hfixA
    rw [hmask]
    apply foldl_dropColumn_id
    intro c hc
    exact hB ▸ foldl_dropColumn_not_mem cvv_columns c A hc

theorem row_get_map_maskEntry (col c : String) (r : Row) (hne : c ≠ col) :
    Row.get (r.map (maskEntry col)) c = r.get c := by
  induction r with
  | nil => rfl
  | cons p rest ih =>
    unfold Row.get at ih ⊢
    by_cases hp : p.1 = c
    · have h1 : (maskEntry col p).1 = c := by rw [maskEntry_fst]; exact hp
      rw [List.map_cons,
        List.find?_cons_of_pos _ (by simpa using h1),
        List.find?_cons_of_pos _ (by simpa using hp)]
      have hmask : maskEntry col p = p := by
        unfold maskEntry
        rw [if_neg (by rw [hp]; exact hne)]
      rw [hmask]
    · have h1 : ¬((maskEntry col p).1 = c) := by rw [maskEntry_fst]; exact hp
      rw [List.map_cons,
        List.find?_cons_of_neg _ (by simpa using h1),
        List.find?_cons_of_neg _ (by simpa using hp)]
      exact ih

theorem row_get_filter_ne (col c : String) (r : Row) (hne : c ≠ col) :
    Row.get (r.filter (fun p => decide (p.1 ≠ col))) c = r.get c := by
  induction r with
  | nil => rfl
  | cons p rest ih =>
    unfold Row.get at ih ⊢
    by_cases hp : p.1 = col
    · rw [List.filter_cons_of_neg (by simpa using hp),
        List.find?_cons_of_neg _ (by simp [hp]; rintro rfl; exact hne rfl)]
      exact ih
    · rw [List.filter_cons_of_pos (by simpa using hp)]
      by_cases hc : p.1 = c
      · rw [List.find?_cons_of_pos _ (by simpa using hc),
          List.find?_cons_of_pos _ (by simpa using hc)]
      · rw [List.find?_cons_of_neg _ (by simpa using hc),
          List.find?_cons_of_neg _ (by simpa using hc)]
        exact ih

theorem cell_maskColumn (col c : String) (df : Batch) (i : Nat) (hne : c ≠ col) :
    (maskColumn col df).cell i c = df.cell i c := by
  unfold maskColumn
  split
  · unfold Batch.cell
    simp only [List.getElem?_map]
    cases hrow : df.rows[i]? with
    | none => rfl
    | some r => exact row_get_map_maskEntry col c r hne
  · rfl

theorem cell_dropColumn (col c : String) (df : Batch) (i : Nat) (hne : c ≠ col) :
    (dropColumn col df).cell i c = df.cell i c := by
  unfold dropColumn
  split
  · unfold Batch.cell
    simp only [List.getElem?_map]
    cases hrow : df.rows[i]? with
    | none => rfl
    | some r => exact row_get_filter_ne col c r hne
  · rfl

theorem cell_foldl_maskColumn (cs : List String) (c : String) (df : Batch) (i : Nat)
    (h : c ∉ cs) :
    (cs.foldl (fun d col => maskColumn col d) df).cell i c = df.cell i c := by
  induction cs generalizing df with
  | nil => rfl
  | cons col cs ih =>
    rw [List.foldl_cons, ih (maskColumn col df) (fun hc => h (by simp [hc])),
      cell_maskColumn col c df i (fun hc => h (by simp [hc]))]

theorem cell_foldl_dropColumn (cs : List String) (c : String) (df : Batch) (i : Nat)
    (h : c ∉ cs) :
    (cs.foldl (fun d col => dropColumn col d) df).cell i c = df.cell i c := by
  induction cs generalizing df with
  | nil => rfl
  | cons col cs ih =>
    rw [List.foldl_cons, ih (dropColumn col df) (fun hc => h (by simp [hc])),
      cell_dropColumn col c df i (fun hc => h (by simp [hc]))]

theorem foldl_maskColumn_rows_length (cs : List String) (df : Batch) :
    (cs.foldl (fun d col => maskColumn col d) df).rows.length = df.rows.length := by
  induction cs generalizing df with
  | nil => rfl
  | cons col cs ih =>
    rw [List.foldl_cons, ih (maskColumn col df), maskColumn_rows_length]

theorem foldl_dropColumn_rows_length (cs : List String) (df : Batch) :
    (cs.foldl (fun d col => dropColumn col d) df).rows.length = df.rows.length := by
  induction cs generalizing df with
  | nil => rfl
  | cons col cs ih =>
    rw [List.foldl_cons, ih (dropColumn col df), dropColumn_rows_length]

theorem map_fst_filter_ne (col : String) (r : Row) :
    (r.filter (fun p => decide (p.1 ≠ col))).map Prod.fst
      = (r.map Prod.fst).filter (fun c => decide (c ≠ col)) := by
  induction r with
  | nil => rfl
  | cons p rest ih =>
    by_cases hp : p.1 = col
    · rw [List.filter_cons_of_neg (by simpa using hp), List.map_cons,
        List.filter_cons_of_neg (by simpa using hp)]
      exact ih
    · rw [List.filter_cons_of_pos (by simpa using hp), List.map_cons, List.map_cons,
        List.filter_cons_of_pos (by simpa using hp), ih]

theorem wf_maskColumn (col : String) (df : Batch) (h : df.WF) :
    (maskColumn col df).WF := by
  unfold maskColumn
  split
  · intro r hr
    obtain ⟨r0, hr0, rfl⟩ := List.mem_map.mp hr
    have : (r0.map (maskEntry col)).map Prod.fst = r0.map Prod.fst := by
      rw [List.map_map]
      exact List.map_congr_left (fun p _ => maskEntry_fst col p)
    rw [this]
    exact h r0 hr0
  · exact h

theorem wf_dropColumn (col : String) (df : Batch) (h : df.WF) :
    (dropColumn col df).WF := by
  unfold dropColumn
  split
  · intro r hr
    obtain ⟨r0, hr0, rfl⟩ := List.mem_map.mp hr
    rw [map_fst_filter_ne, h r0 hr0]
  · exact h

theorem wf_foldl_maskColumn (cs : List String) (df : Batch) (h : df.WF) :
    (cs.foldl (fun d col => maskColumn col d) df).WF := by
  induction cs generalizing df with
  | nil => exact h
  | cons col cs ih => exact ih (maskColumn col df) (wf_maskColumn col df h)

theorem wf_foldl_dropColumn (cs : List String) (df : Batch) (h : df.WF) :
    (cs.foldl (fun d col => dropColumn col d) df).WF := by
  induction cs generalizing df with
  | nil => exact h
  | cons col cs ih => exact ih (dropColumn col df) (wf_dropColumn col df h)

/-- Masking a column rewrites that column's cell through
`_mask_credit_card` (row level). -/
theorem row_get_map_maskEntry_self (col : String) (r : Row) (v : Value)
    (h : r.get col = some v) :
    Row.get (r.map (maskEntry col)) col = some (mask_credit_card v) := by
  induction r with
  | nil => simp [Row.get] at h
  | cons p rest ih =>
    unfold Row.get at h ih ⊢
    by_cases hp : p.1 = col
    · rw [List.find?_cons_of_pos _ (by simpa using hp)] at h
      rw [List.map_cons,
        List.find?_cons_of_pos _ (by simp [maskEntry_fst, hp])]
      have hv : p.2 = v := by simpa using h
      unfold maskEntry
      rw [if_pos hp]
      simp [hv]
    · rw [List.find?_cons_of_neg _ (by simpa using hp)] at h
      rw [List.map_cons,
        List.find?_cons_of_neg _ (by simp [maskEntry_fst, hp])]
      exact ih h

/-- Masking a column rewrites that column's cell through
`_mask_credit_card` (batch level). -/
theorem cell_maskColumn_self (col : String) (df : Batch) (i : Nat) (v : Value)
    (hcol : col ∈ df.cols) (hcell : df.cell i col = some v) :
    (maskColumn col df).cell i col = some (mask_credit_card v) := by
  unfold Batch.cell at hcell
  cases hrow : df.rows[i]? with
  | none => rw [hrow] at hcell; simp at hcell
  | some r =>
    rw [hrow] at hcell
    simp only [Option.some_bind] at hcell
    unfold maskColumn
    rw [if_pos hcol]
    unfold Batch.cell
    simp only [List.getElem?_map, hrow, Option.map_some, Option.some_bind]
    exact row_get_map_maskEntry_self col r v hcell

/-- The full card-column masking pass rewrites a card column's cell
through `_mask_credit_card`. -/
theorem cell_foldl_maskColumn_self (cs : List String) (col : String) (df : Batch)
    (i : Nat) (v : Value) (hc : col ∈ cs) (hcol : col ∈ df.cols)
    (hcell : df.cell i col = some v) :
    (cs.foldl (fun d c => maskColumn c d) df).cell i col =
      some (mask_credit_card v) := by
  induction cs generalizing df v with
  | nil => exact absurd hc (List.not_mem_nil col)
  | cons c0 cs ih =>
    by_cases he : col = c0
    · subst he
      have h1 : (maskColumn col df).cell i col = some (mask_credit_card v) :=
        cell_maskColumn_self col df i v hcol hcell
      by_cases hin : col ∈ cs
      · rw [List.foldl_cons,
          ih (maskColumn col df) (mask_credit_card v) hin
            (by rw [maskColumn_cols]; exact hcol) h1,
          mask_credit_card_idem]
      · rw [List.foldl_cons, cell_foldl_maskColumn cs col _ i hin, h1]
    · have hin : col ∈ cs := by
        rcases List.mem_cons.mp hc with h | h
        · exact absurd h he
        · exact h
      rw [List.foldl_cons]
      refine ih (maskColumn c0 df) v hin (by rw [maskColumn_cols]; exact hcol) ?_
      rw [cell_maskColumn c0 col df i he]
      exact hcell

/-- The mask character occurs in every masked card string. -/
theorem star_mem_maskedChars {s : List Char} (h13 : 13 ≤ s.length) :
    '*' ∈ maskedChars s := by
  unfold maskedChars
  apply List.mem_append.mpr
  left
  apply List.mem_replicate.mpr
  exact ⟨by omega, rfl⟩

/-- The separator-stripped original card string is at most as long as the
raw original. -/
theorem stripSeps_length_le (l : List Char) : (stripSeps l).length ≤ l.length :=
  (List.filter_sublist l).length_le

/-- The raw original value (digits, spaces and hyphens only) never occurs
as a contiguous substring of its own masked string: it is at least as long
as the masked string, which contains the mask character while the
original does not. -/
theorem not_infix_masked {orig : List Char}
    (horig : looksLikeCard (stripSeps orig) = true) :
    ¬ orig <:+: maskedChars (stripSeps orig) := by
  obtain ⟨h13, h19, hall⟩ := looksLikeCard_parts horig
  intro hinf
  obtain ⟨a, b, hab⟩ := hinf
  have hlenmask : (maskedChars (stripSeps orig)).length = (stripSeps orig).length := by
    unfold maskedChars
    rw [List.length_append, List.length_replicate, List.length_drop]
    omega
  have hlen : a.length + (orig.length + b.length) =
      (maskedChars (stripSeps orig)).length := by
    rw [← hab]
    simp [List.length_append]
  have horiglen : (stripSeps orig).length ≤ orig.length := stripSeps_length_le orig
  have ha : a = [] := List.eq_nil_of_length_eq_zero (by omega)
  have hb : b = [] := List.eq_nil_of_length_eq_zero (by omega)
  subst ha hb
  simp only [List.nil_append, List.append_nil] at hab
  have hstar : '*' ∈ orig := by
    rw [hab]
    exact star_mem_maskedChars h13
  have hstar' : '*' ∈ stripSeps orig := by
    unfold stripSeps
    exact List.mem_filter.mpr ⟨hstar, by decide⟩
  have := hall '*' hstar'
  simp at this

/-- Counterexample for C3: card value `"4111 1111 1111 1111"` (19
characters, with spaces) masks to the 16-character `"************1111"`,
so the masked value does not have the same total length as the original;
and the same original string kept verbatim in a non-card column of the
batch still contains the full original value as a substring after
masking. -/
theorem C3_counterexample :
    looksLikeCard (stripSeps ("4111 1111 1111 1111" : String).data) = true ∧
    (mask_sensitive_fields true
        ⟨["card_number", "notes"],
          [[("card_number", Value.str "4111 1111 1111 1111"),
            ("notes", Value.str "4111 1111 1111 1111")]]⟩).cell 0 "card_number" =
      some (.str "************1111") ∧
    ("************1111" : String).length ≠ ("4111 1111 1111 1111" : String).length ∧
    (∃ c ∈ (mask_sensitive_fields true
        ⟨["card_number", "notes"],
          [[("card_number", Value.str "4111 1111 1111 1111"),
            ("notes", Value.str "4111 1111 1111 1111")]]⟩).cols,
      ∃ w : String,
        (mask_sensitive_fields true
          ⟨["card_number", "notes"],
            [[("card_number", Value.str "4111 1111 1111 1111"),
              ("notes", Value.str "4111 1111 1111 1111")]]⟩).cell 0 c =
          some (.str w) ∧
        ("4111 1111 1111 1111" : String).data <:+: w.data) := by
  refine ⟨by decide, by decide, by decide, "notes", by decide,
    "4111 1111 1111 1111", by decide, List.infix_refl _⟩

/-- C3 (amended): for every batch cell in a card-number column present in
the batch whose value, after removing spaces and hyphens, is 13-19
contiguous digits, the masked cell is the mask-character string keeping
the last 4 digits: its length equals the length of the separator-stripped
original, its last 4 characters equal the stripped original's last 4
characters, and the full original value does not occur as a substring of
that masked cell (cells outside card-number columns are out of masking's
scope). -/
theorem C3_card_masking_amended (df : Batch) (c : String) (i : Nat) (v : Value)
    (hc : c ∈ credit_card_columns) (hcol : c ∈ df.cols)
    (hcell : df.cell i c = some v)
    (hcard : looksLikeCard (stripSeps (valueToString v).data) = true) :
    (mask_sensitive_fields true df).cell i c =
      some (.str (String.mk (maskedChars (stripSeps (valueToString v).data)))) ∧
    (maskedChars (stripSeps (valueToString v).data)).length =
      (stripSeps (valueToString v).data).length ∧
    (maskedChars (stripSeps (valueToString v).data)).drop
        ((stripSeps (valueToString v).data).length - 4) =
      (stripSeps (valueToString v).data).drop
        ((stripSeps (valueToString v).data).length - 4) ∧
    ¬ (valueToString v).data <:+: maskedChars (stripSeps (valueToString v).data) := by
  obtain ⟨h13, h19, hall⟩ := looksLikeCard_parts hcard
  have hnotcvv : c ∉ cvv_columns := by
    fin_cases hc <;> decide
  have hmaskv : mask_credit_card v =
      .str (String.mk (maskedChars (stripSeps (valueToString v).data))) := by
    cases v with
    | null =>
      simp [valueToString, stripSeps, looksLikeCard] at hcard
    | str s =>
      simp only [valueToString] at hcard ⊢
      rw [mask_credit_card_str, if_pos hcard]
    | num q =>
      simp only [valueToString] at hcard ⊢
      rw [mask_credit_card_num, if_pos hcard]
  refine ⟨?_, ?_, ?_, not_infix_masked hcard⟩
  · unfold mask_sensitive_fields
    simp only [Bool.not_true, Bool.false_eq_true, if_false]
    rw [cell_foldl_dropColumn cvv_columns c _ i hnotcvv,
      cell_foldl_maskColumn_self credit_card_columns c df i v hc hcol hcell, hmaskv]
  · unfold maskedChars
    rw [List.length_append, List.length_replicate, List.length_drop]
    omega
  · unfold maskedChars
    have h := List.drop_left
      (List.replicate ((stripSeps (valueToString v).data).length - 4) '*')
      ((stripSeps (valueToString v).data).drop
        ((stripSeps (valueToString v).data).length - 4))
    rw [List.length_replicate] at h
    exact h

/-- Witness for C3 (amended) at a concrete all-digit card value. -/
theorem C3_card_masking_amended_witness :
    ("card_number" ∈ credit_card_columns) ∧
    ((⟨["card_number"], [[("card_number", Value.str "4111111111111111")]]⟩ : Batch).cell
        0 "card_number" = some (.str "4111111111111111")) ∧
    looksLikeCard
      (stripSeps (valueToString (.str "4111111111111111")).data) = true ∧
    (mask_sensitive_fields true
        ⟨["card_number"], [[("card_number", Value.str "4111111111111111")]]⟩).cell
        0 "card_number" =
      some (.str (String.mk (maskedChars
        (stripSeps (valueToString (Value.str "4111111111111111")).data)))) := by
  refine ⟨by decide, by decide, by decide, ?_⟩
  exact (C3_card_masking_amended
    ⟨["card_number"], [[("card_number", Value.str "4111111111111111")]]⟩
    "card_number" 0 (.str "4111111111111111")
    (by decide) (by decide) (by decide) (by decide)).1

/-- C10: with masking enabled (the default configuration), masking removes
every security-code column (cvv, cvv2, cvc, security_code) from the batch
entirely — from the column list and from every row — preserves the row
count and row order, and leaves every cell of every column that is
neither a card-number column nor a security-code column unchanged
value-for-value. -/
theorem C10_mask_frame (df : Batch) (hwf : df.WF) :
    ((mask_sensitive_fields true df).rows.length = df.rows.length) ∧
    (∀ c ∈ cvv_columns, c ∉ (mask_sensitive_fields true df).cols) ∧
    (∀ r ∈ (mask_sensitive_fields true df).rows, ∀ p ∈ r, p.1 ∉ cvv_columns) ∧
    (∀ (i : Nat) (c : String), c ∉ credit_card_columns → c ∉ cvv_columns →
      (mask_sensitive_fields true df).cell i c = df.cell i c) := by
  unfold mask_sensitive_fields
  simp only [Bool.not_true, Bool.false_eq_true, if_false]
  set A := credit_card_columns.foldl (fun d c => maskColumn c d) df with hA
  set B := cvv_columns.foldl (fun d c => dropColumn c d) A with hB
  refine ⟨?_, ?_, ?_, ?_⟩
  · rw [hB, foldl_dropColumn_rows_length, hA, foldl_maskColumn_rows_length]
  · intro c hc
    exact hB ▸ foldl_dropColumn_not_mem cvv_columns c A hc
  · intro r hr p hp hpc
    have hwfB : B.WF := hB ▸ wf_foldl_dropColumn cvv_columns A
      (hA ▸ wf_foldl_maskColumn credit_card_columns df hwf)
    have hkeys : r.map Prod.fst = B.cols := hwfB r hr
    have hmem : p.1 ∈ B.cols := hkeys ▸ List.mem_map_of_mem Prod.fst hp
    exact (hB ▸ foldl_dropColumn_not_mem cvv_columns p.1 A hpc) hmem
  · intro i c hcard hcvv
    rw [hB, cell_foldl_dropColumn cvv_columns c A i hcvv, hA,
      cell_foldl_maskColumn credit_card_columns c df i hcard]

/-- Witness for C10 at a concrete well-formed batch with card, cvv and
plain columns. -/
theorem C10_mask_frame_witness :
    (⟨["card_number", "cvv", "notes"],
      [[("card_number", Value.str "4111111111111111"), ("cvv", Value.str "123"),
        ("notes", Value.str "hello")]]⟩ : Batch).WF ∧
    (∀ c ∈ cvv_columns,
      c ∉ (mask_sensitive_fields true
        ⟨["card_number", "cvv", "notes"],
          [[("card_number", Value.str "4111111111111111"), ("cvv", Value.str "123"),
            ("notes", Value.str "hello")]]⟩).cols) := by
  refine ⟨by decide, ?_⟩
  exact (C10_mask_frame
    ⟨["card_number", "cvv", "notes"],
      [[("card_number", Value.str "4111111111111111"), ("cvv", Value.str "123"),
        ("notes", Value.str "hello")]]⟩ (by decide)).2.1

/-! ### Deduplication lemmas (for C1) -/

theorem mem_of_mem_dedupFirst {key : Row → List (Option Value)}
    {seen : List (List (Option Value))} {l : List Row} {r : Row}
    (h : r ∈ dedupFirst key seen l) : r ∈ l := by
  induction l generalizing seen with
  | nil => simp [dedupFirst] at h
  | cons x xs ih =>
    unfold dedupFirst at h
    by_cases hx : key x ∈ seen
    · rw [if_pos hx] at h
      exact List.mem_cons_of_mem x (ih h)
    · rw [if_neg hx] at h
      rcases List.mem_cons.mp h with h' | h'
      · rw [h']
        exact List.mem_cons_self _ _
      · exact List.mem_cons_of_mem x (ih h')

theorem key_not_seen_of_mem_dedupFirst {key : Row → List (Option Value)}
    {seen : List (List (Option Value))} {l : List Row} {r : Row}
    (h : r ∈ dedupFirst key seen l) : key r ∉ seen := by
  induction l generalizing seen with
  | nil => simp [dedupFirst] at h
  | cons x xs ih =>
    unfold dedupFirst at h
    by_cases hx : key x ∈ seen
    · rw [if_pos hx] at h
      exact ih h
    · rw [if_neg hx] at h
      rcases List.mem_cons.mp h with rfl | h'
      · exact hx
      · intro hc
        exact ih h' (List.mem_cons_of_mem _ hc)

/-- `drop_duplicates(keep='first')` keeps exactly one row per unseen key
that occurs in the list. -/
theorem countP_dedupFirst (key : Row → List (Option Value))
    (k : List (Option Value)) (seen : List (List (Option Value))) (l : List Row) :
    (dedupFirst key seen l).countP (fun r => decide (key r = k)) =
      if k ∈ seen then 0
      else min 1 (l.countP (fun r => decide (key r = k))) := by
  induction l generalizing seen with
  | nil => simp [dedupFirst]
  | cons x xs ih =>
    unfold dedupFirst
    by_cases hx : key x ∈ seen
    · rw [if_pos hx, ih]
      by_cases hk : k ∈ seen
      · simp [hk]
      · have hxk : ¬ (key x = k) := fun h => hk (h ▸ hx)
        simp [hk, List.countP_cons, hxk]
    · rw [if_neg hx, List.countP_cons, ih]
      by_cases hxk : key x = k
      · subst hxk
        rw [if_pos (List.mem_cons_self _ _), if_neg hx, List.countP_cons]
        simp
      · have hmem : ¬ (k ∈ key x :: seen ∧ True) ∨ True := Or.inr trivial
        rw [List.countP_cons]
        by_cases hk : k ∈ seen
        · rw [if_pos (List.mem_cons_of_mem _ hk), if_pos hk]
          simp [hxk]
        · have hnotc : k ∉ key x :: seen := by
            intro hc
            rcases List.mem_cons.mp hc with h | h
            · exact hxk h.symm
            · exact hk h
          rw [if_neg hnotc, if_neg hk]
          simp [hxk]

/-- A row whose key is unique in the list survives `keep='first'`
deduplication. -/
theorem mem_dedupFirst_of_unique (key : Row → List (Option Value))
    {seen : List (List (Option Value))} {l : List Row} {r : Row}
    (hns : key r ∉ seen) (hr : r ∈ l)
    (hcount : l.countP (fun x => decide (key x = key r)) = 1) :
    r ∈ dedupFirst key seen l := by
  induction l generalizing seen with
  | nil => simp at hr
  | cons x xs ih =>
    unfold dedupFirst
    rcases List.mem_cons.mp hr with rfl | hrxs
    · rw [if_neg hns]
      exact List.mem_cons_self _ _
    · by_cases hx : key x ∈ seen
      · rw [if_pos hx]
        have hxr : ¬ (key x = key r) := fun h => hns (h ▸ hx)
        apply ih hns hrxs
        rw [List.countP_cons] at hcount
        simpa [hxr] using hcount
      · rw [if_neg hx]
        by_cases hxr : key x = key r
        · exfalso
          have h1 : 0 < xs.countP (fun x => decide (key x = key r)) :=
            List.countP_pos_iff.mpr ⟨r, hrxs, by simp⟩
          rw [List.countP_cons] at hcount
          rw [if_pos (by simp [hxr])] at hcount
          omega
        · apply List.mem_cons_of_mem
          apply ih ?_ hrxs ?_
          · intro hc
            rcases List.mem_cons.mp hc with h | h
            · exact hxr h.symm
            · exact hns h
          · rw [List.countP_cons] at hcount
            simpa [hxr] using hcount

/-- On a list sorted (pairwise) by `R`, the survivor of `keep='first'`
deduplication is `R`-maximal within its key group. -/
theorem dedupFirst_max (R : Row → Row → Prop) (key : Row → List (Option Value))
    {l : List Row} (hPw : l.Pairwise R) :
    ∀ seen, ∀ r ∈ dedupFirst key seen l, ∀ r' ∈ l, key r' = key r →
      R r r' ∨ r = r' := by
  induction l with
  | nil =>
    intro seen r hr
    simp [dedupFirst] at hr
  | cons x xs ih =>
    intro seen r hr r' hr' hk
    obtain ⟨hhead, htail⟩ := List.pairwise_cons.mp hPw
    unfold dedupFirst at hr
    by_cases hx : key x ∈ seen
    · rw [if_pos hx] at hr
      have hns := key_not_seen_of_mem_dedupFirst hr
      rcases List.mem_cons.mp hr' with rfl | hr'xs
      · exact absurd (hk ▸ hx) hns
      · exact ih htail seen r hr r' hr'xs hk
    · rw [if_neg hx] at hr
      rcases List.mem_cons.mp hr with rfl | hrrest
      · rcases List.mem_cons.mp hr' with rfl | hr'xs
        · right; rfl
        · left; exact hhead r' hr'xs
      · have hns := key_not_seen_of_mem_dedupFirst hrrest
        have hkx : key r ≠ key x := fun h =>
          hns (h ▸ List.mem_cons_self (key x) seen)
        rcases List.mem_cons.mp hr' with rfl | hr'xs
        · exact absurd hk (fun h => hkx h.symm)
        · exact ih htail _ r hrrest r' hr'xs hk

/-- C1: deduplication with a present tie-break timestamp column.  The
output keeps the column list, every output row is an input row, every
primary-key tuple occurring in the input occurs exactly once in the
output, each surviving row carries a maximal tie-break timestamp within
its key group, and a row whose key tuple is unique in the input survives
unchanged. -/
theorem C1_deduplicate (tsCol table : String) (df : Batch)
    (hpk : get_primary_keys table ≠ [])
    (hpkcols : ∀ k ∈ get_primary_keys table, k ∈ df.cols)
    (hts : tsCol ∈ df.cols) :
    (deduplicate_records tsCol table df).cols = df.cols ∧
    (∀ r ∈ (deduplicate_records tsCol table df).rows, r ∈ df.rows) ∧
    (∀ k : List (Option Value),
      0 < df.rows.countP
        (fun r => decide (keyOf (get_primary_keys table) r = k)) →
      (deduplicate_records tsCol table df).rows.countP
        (fun r => decide (keyOf (get_primary_keys table) r = k)) = 1) ∧
    (∀ r ∈ (deduplicate_records tsCol table df).rows, ∀ r' ∈ df.rows,
      keyOf (get_primary_keys table) r' = keyOf (get_primary_keys table) r →
      ∀ q q' : ℚ, r.get tsCol = some (.num q) → r'.get tsCol = some (.num q') →
        q' ≤ q) ∧
    (∀ r ∈ df.rows,
      df.rows.countP (fun r' => decide (keyOf (get_primary_keys table) r' =
        keyOf (get_primary_keys table) r)) = 1 →
      r ∈ (deduplicate_records tsCol table df).rows) := by
  have hany : ¬ ((get_primary_keys table).any (fun k => decide (k ∉ df.cols)) = true) := by
    simp only [List.any_eq_true, decide_eq_true_eq, not_exists, not_and, not_not]
    intro k hk
    exact hpkcols k hk
  have hout : deduplicate_records tsCol table df =
      { df with
        rows := (dedupFirst (keyOf (get_primary_keys table)) []
          (df.rows.insertionSort (tsGE tsCol))) } := by
    unfold deduplicate_records
    rw [if_neg hpk, if_neg (by simpa using hany), if_neg (not_not_intro hts)]
  have hperm : List.Perm (df.rows.insertionSort (tsGE tsCol)) df.rows :=
    List.perm_insertionSort (tsGE tsCol) df.rows
  have hsorted : (df.rows.insertionSort (tsGE tsCol)).Pairwise (tsGE tsCol) :=
    List.sorted_insertionSort (tsGE tsCol) df.rows
  rw [hout]
  refine ⟨rfl, ?_, ?_, ?_, ?_⟩
  · intro r hr
    exact hperm.mem_iff.mp (mem_of_mem_dedupFirst hr)
  · intro k hkpos
    rw [countP_dedupFirst, if_neg (List.not_mem_nil k), hperm.countP_eq]
    omega
  · intro r hr r' hr' hk q q' hq hq'
    have hr'sorted : r' ∈ df.rows.insertionSort (tsGE tsCol) := hperm.mem_iff.mpr hr'
    rcases dedupFirst_max (tsGE tsCol) (keyOf (get_primary_keys table)) hsorted
        [] r hr r' hr'sorted hk with hR | rfl
    · unfold tsGE tsKey at hR
      rw [hq, hq'] at hR
      exact hR
    · rw [hq] at hq'
      simp at hq'
      rw [hq']
  · intro r hr hcount
    apply mem_dedupFirst_of_unique (keyOf (get_primary_keys table))
      (List.not_mem_nil _) (hperm.mem_iff.mpr hr)
    rw [hperm.countP_eq]
    exact hcount

/-- Witness for C1: the spec's concrete scenario — five customer rows,
three sharing `customer_id = "C1"` with timestamps 1 < 2 < 3, plus two
unique rows; the key `"C1"` occurs exactly once in the output. -/
theorem C1_deduplicate_witness :
    (get_primary_keys "customers" ≠ []) ∧
    (∀ k ∈ get_primary_keys "customers",
      k ∈ (⟨["customer_id", "dms_timestamp"],
        [[("customer_id", Value.str "C1"), ("dms_timestamp", Value.num 1)],
         [("customer_id", Value.str "C2"), ("dms_timestamp", Value.num 5)],
         [("customer_id", Value.str "C1"), ("dms_timestamp", Value.num 3)],
         [("customer_id", Value.str "C1"), ("dms_timestamp", Value.num 2)],
         [("customer_id", Value.str "C3"), ("dms_timestamp", Value.num 4)]]⟩ : Batch).cols) ∧
    ("dms_timestamp" ∈ (⟨["customer_id", "dms_timestamp"],
        [[("customer_id", Value.str "C1"), ("dms_timestamp", Value.num 1)],
         [("customer_id", Value.str "C2"), ("dms_timestamp", Value.num 5)],
         [("customer_id", Value.str "C1"), ("dms_timestamp", Value.num 3)],
         [("customer_id", Value.str "C1"), ("dms_timestamp", Value.num 2)],
         [("customer_id", Value.str "C3"), ("dms_timestamp", Value.num 4)]]⟩ : Batch).cols) ∧
    (deduplicate_records "dms_timestamp" "customers"
        ⟨["customer_id", "dms_timestamp"],
          [[("customer_id", Value.str "C1"), ("dms_timestamp", Value.num 1)],
           [("customer_id", Value.str "C2"), ("dms_timestamp", Value.num 5)],
           [("customer_id", Value.str "C1"), ("dms_timestamp", Value.num 3)],
           [("customer_id", Value.str "C1"), ("dms_timestamp", Value.num 2)],
           [("customer_id", Value.str "C3"), ("dms_timestamp", Value.num 4)]]⟩).rows.countP
      (fun r => decide (keyOf (get_primary_keys "customers") r =
        [some (Value.str "C1")])) = 1 := by
  refine ⟨by decide, by decide, by decide, ?_⟩
  exact (C1_deduplicate "dms_timestamp" "customers"
    ⟨["customer_id", "dms_timestamp"],
      [[("customer_id", Value.str "C1"), ("dms_timestamp", Value.num 1)],
       [("customer_id", Value.str "C2"), ("dms_timestamp", Value.num 5)],
       [("customer_id", Value.str "C1"), ("dms_timestamp", Value.num 3)],
       [("customer_id", Value.str "C1"), ("dms_timestamp", Value.num 2)],
       [("customer_id", Value.str "C3"), ("dms_timestamp", Value.num 4)]]⟩
    (by decide) (by decide) (by decide)).2.2.1
    [some (Value.str "C1")] (by decide)

end DataPipeline
